import Mathlib

/-!
Verification of the `ipfs p2p` command layer (`core/commands/p2p.go`), a
stream-mounting tunnel manager: listener/stream registries with
administrative list/close operations, local- and remote-forward creation,
and the experimental/online gate.

The command layer itself (option decoding, criteria validation, the match
closure, the close/reset loops, the namespace gate, `p2pGetNode`) is
embedded directly from the source.  The registries and the forwarding
engine live in the `p2p` package, which is not part of the source under
verification; their effects (registration, `Listener.Close`,
`Stream.Reset`) are modelled from the specification, as marked on each
definition.  Go's `(value, err)` returns become `Except String`, machine
integers become `Nat`, and a possible nil-interface dereference panic is
modelled with an outer `Option` (`none` = panic).
-/

namespace P2PCommands

/-- Model of the vendored go-multiaddr `Multiaddr` value, identified by its
canonical string representation (the library's `Equal` compares the byte
encodings, which on this level is equality of representations). -/
structure Multiaddr where
  repr : String
deriving DecidableEq, Repr

/-- Go `strings.HasPrefix s pre`, on the character-list view of
strings. -/
def hasPrefixGo (s pre : String) : Bool :=
  pre.data.isPrefixOf s.data

/-- Modelled from the vendored go-multiaddr dependency (external to this
repository): `NewMultiaddr` accepts the empty string (yielding the empty
multiaddr, as in the vendored version, where the component loop simply does
not run) and slash-led strings; anything else fails with the library's
"must begin with /" error.  Component-level validation of slash-led strings
is abstracted away, which is sound for the claims below: they only need
that absent string options (decoded as "") parse and that explicitly given
addresses in scope are parseable. -/
def NewMultiaddr (s : String) : Except String Multiaddr :=
  if s = "" || hasPrefixGo s "/" then .ok ⟨s⟩
  else .error "invalid multiaddr, must begin with /"

/-- `Multiaddr.Equal` from go-multiaddr: byte-level equality, i.e. equality
of canonical representations in this model. -/
def Multiaddr.Equal (a b : Multiaddr) : Bool :=
  a.repr == b.repr

/-- A listener record of the `p2p` package: protocol name, listen address
and target address (the fields read by the command layer via
`Protocol()`, `ListenAddress()`, `TargetAddress()`). -/
structure Listener where
  protocol : String
  listenAddress : Multiaddr
  targetAddress : Multiaddr
deriving DecidableEq, Repr

/-- A stream record of the `p2p` package: the fields read by the command
layer (`Protocol`, `OriginAddr`, `TargetAddr`); the numeric handle is kept
beside it in the registry. -/
structure StreamInfo where
  protocol : String
  originAddr : Multiaddr
  targetAddr : Multiaddr
deriving DecidableEq, Repr

/-- Modelled from the spec: the `p2p` package's `ListenerRegistry`, "a
mutable, shared, insertion-ordered mapping guarded by a single
mutual-exclusion lock"; the sequential view under the lock is a list in
insertion order. -/
structure ListenerRegistry where
  Listeners : List Listener
deriving DecidableEq, Repr

/-- Modelled from the spec: the `p2p` package's `StreamRegistry`, an
insertion-ordered mapping from numeric handles (Go `uint64`, here `Nat`)
to stream records. -/
structure StreamRegistry where
  Streams : List (Nat × StreamInfo)
deriving DecidableEq, Repr

/-- The `p2p.P2P` service value hanging off the node: its identity and the
two registries. -/
structure P2PService where
  identity : String
  Listeners : ListenerRegistry
  Streams : StreamRegistry
deriving DecidableEq, Repr

/-- Model of the peerstore consumed by `forwardLocal`: recorded
(peer, address) pairs. -/
structure Peerstore where
  addrs : List (String × Multiaddr)
deriving DecidableEq, Repr

/-- `ps.AddAddr(id, addr, TempAddrTTL)`: records a temporary
address-to-peer mapping (the TTL is outside this sequential model). -/
def Peerstore.AddAddr (ps : Peerstore) (id : String) (addr : Multiaddr) : Peerstore :=
  ⟨(id, addr) :: ps.addrs⟩

/-- The node state visible to the command layer: the p2p service, the
peerstore, the `Experimental.Libp2pStreamMounting` config flag and the
result of `OnlineMode()`. -/
structure Node where
  P2P : P2PService
  Peerstore : Peerstore
  libp2pStreamMounting : Bool
  onlineMode : Bool
deriving DecidableEq, Repr

/-- `p2pGetNode` from the source: rejects the request when the
`Libp2pStreamMounting` experimental flag is off, then when the node is not
in online mode (`ErrNotOnline` carries this message in the commands
package), and otherwise hands the node through unchanged. -/
def p2pGetNode (n : Node) : Except String Node :=
  if !n.libp2pStreamMounting then .error "libp2p stream mounting not enabled"
  else if !n.onlineMode then .error "this command must be run in online mode"
  else .ok n

/-- The required protocol-name namespace, `P2PProtoPrefix` in the source. -/
def P2PProtoPrefix : String := "/x/"

/-- Model of the vendored go-ipfs-addr dependency (external to this
repository): `ParseString` parses a multiaddr that must carry an
`/ipfs/<peer-id>` component; on success the returned interface value is a
genuine (non-nil) address holding the peer identity and the multiaddr. -/
structure IPFSAddr where
  peerID : String
  multiaddr : Multiaddr
deriving DecidableEq, Repr

/-- The characters after the last occurrence of "/ipfs/", when there is
one. -/
def afterLastIpfs : List Char → Option (List Char)
  | [] => none
  | c :: rest =>
    match afterLastIpfs rest with
    | some r => some r
    | none =>
      if ("/ipfs/".data).isPrefixOf (c :: rest) then some ((c :: rest).drop 6)
      else none

/-- `ipfsaddr.ParseString`: multiaddr parse followed by extraction of the
trailing `/ipfs/<peer-id>` component; fails when either step does. -/
def ParseString (s : String) : Except String IPFSAddr :=
  match NewMultiaddr s with
  | .error e => .error e
  | .ok m =>
    match afterLastIpfs s.data with
    | some pid =>
      if pid ≠ [] && pid.all (fun c => c ≠ '/') then .ok ⟨⟨pid⟩, m⟩
      else .error "invalid ipfs address"
    | none => .error "invalid ipfs address"

/-- `addr.ID()` on the parsed address. -/
def IPFSAddr.ID (a : IPFSAddr) : String := a.peerID

/-- Modelled from the spec: the engine operation behind `p.ForwardLocal`
(`createLocalForward`, §4.3): binds the listen endpoint, failing with a
`BindError`/`DuplicateListener` when an identical (protocol,
listen-address) pair is already registered, and otherwise registers a
Listener record in direction outbound with target = peer. -/
def P2PService.ForwardLocal (p : P2PService) (peer : String) (proto : String)
    (bindAddr : Multiaddr) : Except String P2PService :=
  if p.Listeners.Listeners.any
      (fun lst => lst.protocol == proto && lst.listenAddress.Equal bindAddr) then
    .error "duplicate listener"
  else
    .ok { p with Listeners := ⟨p.Listeners.Listeners ++
            [⟨proto, bindAddr, ⟨"/ipfs/" ++ peer⟩⟩]⟩ }

/-- Modelled from the spec: the engine operation behind `p.ForwardRemote`
(`createRemoteForward`, §4.4): registers a protocol-stream handler,
failing with `ProtocolAlreadyHandled` when the protocol already has one,
and otherwise registers a Listener record with listen = this peer and
target = the dialable endpoint. -/
def P2PService.ForwardRemote (p : P2PService) (proto : String)
    (target : Multiaddr) : Except String P2PService :=
  if p.Listeners.Listeners.any (fun lst => lst.protocol == proto) then
    .error "protocol handler already registered"
  else
    .ok { p with Listeners := ⟨p.Listeners.Listeners ++
            [⟨proto, ⟨"/ipfs/" ++ p.identity⟩, target⟩]⟩ }

/-- `forwardRemote` from the source: delegates to the engine. -/
def forwardRemote (p : P2PService) (proto : String) (target : Multiaddr) :
    Except String P2PService :=
  p.ForwardRemote proto target

/-- `forwardLocal` from the source.  The Go `addr` parameter is an
interface value that may be nil, modelled as `Option IPFSAddr`.  The
source guards the peerstore recording with `if addr != nil` but then calls
`addr.ID()` unconditionally; calling a method through a nil interface
panics, modelled as the outer `none`.  `ps.AddAddr` runs before
`p.ForwardLocal`, so the recorded address persists even when the engine
call fails: the updated peerstore is returned in both branches, alongside
the engine result. -/
def forwardLocal (p : P2PService) (ps : Peerstore) (proto : String)
    (bindAddr : Multiaddr) (addr : Option IPFSAddr) :
    Option (Peerstore × Except String P2PService) :=
  let ps' := match addr with
    | some a => ps.AddAddr a.ID a.multiaddr
    | none => ps
  match addr with
  | none => none
  | some a => some (ps', p.ForwardLocal a.ID proto bindAddr)

/-- Request to `ipfs p2p forward`: three positional string arguments and
the `allow-custom-protocol` flag. -/
structure ForwardRequest where
  protocol : String
  listenAddress : String
  targetAddress : String
  allowCustomProtocol : Bool
deriving DecidableEq, Repr

/-- The `Run` body of `p2pForwardCmd`: gate, parse the listen multiaddr,
parse the target ipfs address, enforce the protocol namespace unless
overridden, then call `forwardLocal`.  The outer `Option` propagates the
modelled nil-interface panic of `forwardLocal`; the `Except` pairs the
resulting node with either the error set on the response or success.  The
peerstore recording made by `forwardLocal` before the engine call is kept
on its error path too, exactly as the in-place Go mutation is. -/
def p2pForwardRun (node : Node) (req : ForwardRequest) :
    Option (Node × Except String Unit) :=
  match p2pGetNode node with
  | .error e => some (node, .error e)
  | .ok n =>
  match NewMultiaddr req.listenAddress with
  | .error e => some (n, .error e)
  | .ok listen =>
  match ParseString req.targetAddress with
  | .error e => some (n, .error e)
  | .ok target =>
  if !req.allowCustomProtocol && !(hasPrefixGo req.protocol P2PProtoPrefix) then
    some (n, .error ("protocol name must be within \x27" ++ P2PProtoPrefix ++ "\x27 namespace"))
  else
    match forwardLocal n.P2P n.Peerstore req.protocol listen (some target) with
    | none => none
    | some (ps', .error e) => some ({ n with Peerstore := ps' }, .error e)
    | some (ps', .ok p') => some ({ n with P2P := p', Peerstore := ps' }, .ok ())

/-- Request to `ipfs p2p listen`: two positional string arguments and the
`allow-custom-protocol` flag. -/
structure ListenRequest where
  protocol : String
  targetAddress : String
  allowCustomProtocol : Bool
deriving DecidableEq, Repr

/-- The `Run` body of `p2pListenCmd`: gate, parse the target multiaddr,
enforce the protocol namespace unless overridden, then call
`forwardRemote`. -/
def p2pListenRun (node : Node) (req : ListenRequest) :
    Node × Except String Unit :=
  match p2pGetNode node with
  | .error e => (node, .error e)
  | .ok n =>
  match NewMultiaddr req.targetAddress with
  | .error e => (n, .error e)
  | .ok target =>
  if !req.allowCustomProtocol && !(hasPrefixGo req.protocol P2PProtoPrefix) then
    (n, .error ("protocol name must be within \x27" ++ P2PProtoPrefix ++ "\x27 namespace"))
  else
    match forwardRemote n.P2P req.protocol target with
    | .error e => (n, .error e)
    | .ok p' => ({ n with P2P := p' }, .ok ())

/-- Output row of `ipfs p2p ls`. -/
structure P2PListenerInfoOutput where
  Protocol : String
  ListenAddress : String
  TargetAddress : String
deriving DecidableEq, Repr

/-- The `Run` body of `p2pLsCmd`: gate, then one output row appended per
registered listener, in registry order. -/
def p2pLsRun (node : Node) : Except String (List P2PListenerInfoOutput) := do
  let n ← p2pGetNode node
  .ok (n.P2P.Listeners.Listeners.map fun lst =>
    ⟨lst.protocol, lst.listenAddress.repr, lst.targetAddress.repr⟩)

/-- Output row of `ipfs p2p stream ls`. -/
structure P2PStreamInfoOutput where
  HandlerID : String
  Protocol : String
  OriginAddress : String
  TargetAddress : String
deriving DecidableEq, Repr

/-- The `Run` body of `p2pStreamLsCmd`: gate, then one output row appended
per registered stream, in registry order, the handle rendered in base
10. -/
def p2pStreamLsRun (node : Node) : Except String (List P2PStreamInfoOutput) := do
  let n ← p2pGetNode node
  .ok (n.P2P.Streams.Streams.map fun e =>
    ⟨toString e.1, e.2.protocol, e.2.originAddr.repr, e.2.targetAddr.repr⟩)

/-- Request to `ipfs p2p close`: the `--all` flag and the three optional
string match options (`none` = option not given; the Go decode yields the
empty string plus a `found = false` flag in that case). -/
structure CloseRequest where
  all : Bool
  protocol : Option String
  listenAddress : Option String
  targetAddress : Option String
deriving DecidableEq, Repr

/-- The `match` closure of `p2pCloseCmd`, verbatim: `--all` matches
everything; otherwise each given option must equal the corresponding
listener field or the listener is skipped. -/
def matchListener (closeAll p l t : Bool) (proto : String)
    (listen target : Multiaddr) (lst : Listener) : Bool :=
  if closeAll then true
  else if p && !(proto == lst.protocol) then false
  else if l && !(listen.Equal lst.listenAddress) then false
  else if t && !(target.Equal lst.targetAddress) then false
  else true

/-- The `Run` body of `p2pCloseCmd`: gate, decode options, parse both
address options (absent options decode to "", which the vendored
multiaddr parser accepts), reject when no criterion is given, reject
`--all` combined with another criterion, and otherwise collect the
matching listeners under the registry lock and close each one.
`Listener.Close` lives in the `p2p` package; modelled from the spec, a
close destroys the listener, removing it from the registry, and succeeds
on a live listener.  The returned count is the number of matched
listeners. -/
def p2pCloseRun (node : Node) (req : CloseRequest) : Node × Except String Nat :=
  match p2pGetNode node with
  | .error e => (node, .error e)
  | .ok n =>
  let closeAll := req.all
  let protoOpt := req.protocol.getD ""
  let p := req.protocol.isSome
  let listenOpt := req.listenAddress.getD ""
  let l := req.listenAddress.isSome
  let targetOpt := req.targetAddress.getD ""
  let t := req.targetAddress.isSome
  match NewMultiaddr listenOpt with
  | .error e => (n, .error e)
  | .ok listen =>
  match NewMultiaddr targetOpt with
  | .error e => (n, .error e)
  | .ok target =>
  if !(closeAll || p || l || t) then
    (n, .error "no matching options given")
  else if closeAll && (p || l || t) then
    (n, .error "can\x27t combine --all with other matching options")
  else
    let todo := n.P2P.Listeners.Listeners.filter
      (matchListener closeAll p l t protoOpt listen target)
    let remaining := n.P2P.Listeners.Listeners.filter
      (fun lst => !(matchListener closeAll p l t protoOpt listen target lst))
    ({ n with P2P := { n.P2P with Listeners := ⟨remaining⟩ } }, .ok todo.length)

/-- Request to `ipfs p2p stream close`: the optional positional id and the
`--all` flag. -/
structure StreamCloseRequest where
  id : Option String
  all : Bool
deriving DecidableEq, Repr

/-- Go `strconv.ParseUint(s, 10, 64)` on the character-list view: a
non-empty all-digit string parses to its base-10 value (the 64-bit range
cutoff is outside this model; registry handles stay well below it). -/
def parseUintGo (s : String) : Option Nat :=
  if s.data ≠ [] && s.data.all (fun c => c.isDigit) then
    some (s.data.foldl (fun n c => n * 10 + (c.toNat - 48)) 0)
  else none

/-- The close loop of `p2pStreamCloseCmd`, verbatim in structure: walk the
registry; without `--all`, skip entries whose handle differs, reset the
first entry whose handle equals the requested one and break (the rest of
the registry is left untouched); with `--all`, reset every entry.
`Stream.Reset` lives in the `p2p` package; modelled from the spec, a
reset destroys the stream and its deregistration is synchronous, so a
reset entry disappears from the registry. -/
def resetMatching (closeAll : Bool) (handlerID : Nat) :
    List (Nat × StreamInfo) → List (Nat × StreamInfo)
  | [] => []
  | e :: rest =>
    if !closeAll && handlerID != e.1 then e :: resetMatching closeAll handlerID rest
    else if !closeAll then rest
    else resetMatching closeAll handlerID rest

/-- The `Run` body of `p2pStreamCloseCmd`: gate; without `--all` an id
argument is required and parsed as a base-10 unsigned integer; then the
close loop runs over the stream registry. -/
def p2pStreamCloseRun (node : Node) (req : StreamCloseRequest) :
    Node × Except String Unit :=
  match p2pGetNode node with
  | .error e => (node, .error e)
  | .ok n =>
  if !req.all then
    match req.id with
    | none => (n, .error "no id specified")
    | some idStr =>
      match parseUintGo idStr with
      | none => (n, .error "invalid syntax")
      | some handlerID =>
        ({ n with P2P := { n.P2P with
            Streams := ⟨resetMatching false handlerID n.P2P.Streams.Streams⟩ } }, .ok ())
  else
    ({ n with P2P := { n.P2P with
        Streams := ⟨resetMatching true 0 n.P2P.Streams.Streams⟩ } }, .ok ())

/-- Spec-side reading of the close criteria: every field the caller
specified is exactly equal to the listener's corresponding field;
unspecified fields are wildcards. -/
def specifiedFieldsMatch (p l t : Bool) (proto : String)
    (listen target : Multiaddr) (lst : Listener) : Bool :=
  (!p || proto == lst.protocol) && (!l || listen.Equal lst.listenAddress)
    && (!t || target.Equal lst.targetAddress)

/-! ## Helper lemmas -/

/-- With `--all` off, the match closure of the source agrees pointwise with
the spec reading of the criteria: every specified field must be exactly
equal; unspecified fields are wildcards. -/
lemma matchListener_not_all (p l t : Bool) (proto : String)
    (listen target : Multiaddr) :
    matchListener false p l t proto listen target
      = specifiedFieldsMatch p l t proto listen target := by
  funext lst
  cases hp : proto == lst.protocol <;>
    cases hla : listen.Equal lst.listenAddress <;>
      cases hta : target.Equal lst.targetAddress <;>
        cases p <;> cases l <;> cases t <;>
          simp [matchListener, specifiedFieldsMatch, hp, hla, hta]

/-- With `--all` on, the match closure of the source accepts every
listener. -/
lemma matchListener_all (p l t : Bool) (proto : String)
    (listen target : Multiaddr) :
    matchListener true p l t proto listen target = fun _ => true :=
  funext fun _ => rfl

/-- A passing gate hands the node through unchanged. -/
lemma p2pGetNode_ok (node : Node) (hm : node.libp2pStreamMounting = true)
    (ho : node.onlineMode = true) : p2pGetNode node = .ok node := by
  simp [p2pGetNode, hm, ho]

/-- Characterization of a validated selective close: when the gate passes,
`--all` is off and at least one criterion is given (the two address
options parsing to `listen` and `target`; absent options decode to "",
which parses), the run closes exactly the listeners all of whose specified
fields match, leaves the others registered in order, and returns the
number closed. -/
lemma p2pCloseRun_selective (node : Node) (req : CloseRequest)
    (listen target : Multiaddr)
    (hm : node.libp2pStreamMounting = true) (ho : node.onlineMode = true)
    (hall : req.all = false)
    (hsome : req.protocol.isSome ∨ req.listenAddress.isSome ∨ req.targetAddress.isSome)
    (hl : NewMultiaddr (req.listenAddress.getD "") = .ok listen)
    (ht : NewMultiaddr (req.targetAddress.getD "") = .ok target) :
    p2pCloseRun node req
      = ({ node with P2P := { node.P2P with Listeners :=
            ⟨node.P2P.Listeners.Listeners.filter (fun lst =>
               !(specifiedFieldsMatch req.protocol.isSome req.listenAddress.isSome
                   req.targetAddress.isSome (req.protocol.getD "") listen target lst))⟩ } },
         .ok (node.P2P.Listeners.Listeners.filter
               (specifiedFieldsMatch req.protocol.isSome req.listenAddress.isSome
                  req.targetAddress.isSome (req.protocol.getD "") listen target)).length) := by
  have hgate := p2pGetNode_ok node hm ho
  rcases hsome with h | h | h <;>
    simp [p2pCloseRun, hgate, hl, ht, hall, h, matchListener_not_all]

/-! ## Sample states used by the witnesses -/

/-- A listener on protocol `/x/p1`. -/
def sampleListenerA : Listener :=
  ⟨"/x/p1", ⟨"/ip4/127.0.0.1/tcp/4567"⟩, ⟨"/ipfs/QmPeer"⟩⟩

/-- A listener differing from `sampleListenerA` only in the protocol. -/
def sampleListenerB : Listener :=
  ⟨"/x/p2", ⟨"/ip4/127.0.0.1/tcp/4567"⟩, ⟨"/ipfs/QmPeer"⟩⟩

/-- A gate-passing node with two listeners differing only in protocol and
two streams under handles 4 and 7. -/
def sampleNode : Node :=
  { P2P := ⟨"QmSelf", ⟨[sampleListenerA, sampleListenerB]⟩,
      ⟨[(4, ⟨"/x/p1", ⟨"/ip4/1.1.1.1/tcp/1"⟩, ⟨"/ip4/2.2.2.2/tcp/2"⟩⟩),
        (7, ⟨"/x/p2", ⟨"/ip4/3.3.3.3/tcp/3"⟩, ⟨"/ip4/4.4.4.4/tcp/4"⟩⟩)]⟩⟩
    Peerstore := ⟨[]⟩
    libp2pStreamMounting := true
    onlineMode := true }

/-! ## Claims -/

/-- C1: for every close-listeners call with at least one specific
criterion and `--all` off, a listener is closed (removed by
`Listener.Close`) exactly when every specified criterion equals the
corresponding field of that listener; unspecified fields are wildcards,
and listeners failing any specified field remain registered. -/
theorem close_listeners_selective_match (node : Node) (req : CloseRequest)
    (listen target : Multiaddr)
    (hm : node.libp2pStreamMounting = true) (ho : node.onlineMode = true)
    (hall : req.all = false)
    (hsome : req.protocol.isSome ∨ req.listenAddress.isSome ∨ req.targetAddress.isSome)
    (hl : NewMultiaddr (req.listenAddress.getD "") = .ok listen)
    (ht : NewMultiaddr (req.targetAddress.getD "") = .ok target) :
    p2pCloseRun node req
      = ({ node with P2P := { node.P2P with Listeners :=
            ⟨node.P2P.Listeners.Listeners.filter (fun lst =>
               !(specifiedFieldsMatch req.protocol.isSome req.listenAddress.isSome
                   req.targetAddress.isSome (req.protocol.getD "") listen target lst))⟩ } },
         .ok (node.P2P.Listeners.Listeners.filter
               (specifiedFieldsMatch req.protocol.isSome req.listenAddress.isSome
                  req.targetAddress.isSome (req.protocol.getD "") listen target)).length) :=
  p2pCloseRun_selective node req listen target hm ho hall hsome hl ht

/-- C1 witness: closing by protocol `/x/p1` on a node with two listeners
differing only in protocol closes exactly the `/x/p1` one. -/
theorem close_listeners_selective_match_witness :
    p2pCloseRun sampleNode ⟨false, some "/x/p1", none, none⟩
      = ({ sampleNode with P2P := { sampleNode.P2P with
            Listeners := ⟨[sampleListenerB]⟩ } }, .ok 1) := by
  have h := close_listeners_selective_match sampleNode
    ⟨false, some "/x/p1", none, none⟩ ⟨""⟩ ⟨""⟩ rfl rfl rfl (Or.inl rfl) rfl rfl
  rw [h]
  rfl

/-- C2: close-listeners with `--all` and no other criterion closes every
listener, returns the number that were registered immediately before the
call, and a subsequent list-listeners returns the empty sequence. -/
theorem close_listeners_all_closes_everything (node : Node)
    (hm : node.libp2pStreamMounting = true) (ho : node.onlineMode = true) :
    p2pCloseRun node ⟨true, none, none, none⟩
      = ({ node with P2P := { node.P2P with Listeners := ⟨[]⟩ } },
         .ok node.P2P.Listeners.Listeners.length) ∧
    p2pLsRun { node with P2P := { node.P2P with Listeners := ⟨[]⟩ } } = .ok [] := by
  have hgate := p2pGetNode_ok node hm ho
  constructor
  · simp [p2pCloseRun, hgate, NewMultiaddr, matchListener_all]
  · simp [p2pLsRun, p2pGetNode, hm, ho, bind, Except.bind]

/-- C2 witness: on the two-listener sample node, `--all` closes both,
reports 2, and the listener registry is empty afterwards. -/
theorem close_listeners_all_closes_everything_witness :
    p2pCloseRun sampleNode ⟨true, none, none, none⟩
      = ({ sampleNode with P2P := { sampleNode.P2P with Listeners := ⟨[]⟩ } }, .ok 2) ∧
    p2pLsRun { sampleNode with P2P := { sampleNode.P2P with Listeners := ⟨[]⟩ } } = .ok [] := by
  have h := close_listeners_all_closes_everything sampleNode rfl rfl
  exact ⟨h.1.trans (by rfl), h.2⟩

/-- C3: close-listeners with `--all` off and no criterion at all fails
with the "no matching options given" error, and the node (both
registries) is returned unchanged. -/
theorem close_listeners_no_criteria_error (node : Node)
    (hm : node.libp2pStreamMounting = true) (ho : node.onlineMode = true) :
    p2pCloseRun node ⟨false, none, none, none⟩
      = (node, .error "no matching options given") := by
  have hgate := p2pGetNode_ok node hm ho
  simp [p2pCloseRun, hgate, NewMultiaddr]

/-- C3 witness: the sample node, closed with no criteria, errors and is
unchanged. -/
theorem close_listeners_no_criteria_error_witness :
    p2pCloseRun sampleNode ⟨false, none, none, none⟩
      = (sampleNode, .error "no matching options given") :=
  close_listeners_no_criteria_error sampleNode rfl rfl

/-- C4: close-listeners combining `--all` with any specific criterion
fails with the conflicting-options error, and the node (both registries)
is returned unchanged. -/
theorem close_listeners_all_conflict_error (node : Node) (req : CloseRequest)
    (listen target : Multiaddr)
    (hm : node.libp2pStreamMounting = true) (ho : node.onlineMode = true)
    (hall : req.all = true)
    (hsome : req.protocol.isSome ∨ req.listenAddress.isSome ∨ req.targetAddress.isSome)
    (hl : NewMultiaddr (req.listenAddress.getD "") = .ok listen)
    (ht : NewMultiaddr (req.targetAddress.getD "") = .ok target) :
    p2pCloseRun node req
      = (node, .error "can\x27t combine --all with other matching options") := by
  have hgate := p2pGetNode_ok node hm ho
  rcases hsome with h | h | h <;>
    simp [p2pCloseRun, hgate, hl, ht, hall, h]

/-- C4 witness: `--all` plus a protocol criterion on the sample node
errors and leaves it unchanged. -/
theorem close_listeners_all_conflict_error_witness :
    p2pCloseRun sampleNode ⟨true, some "/x/p1", none, none⟩
      = (sampleNode, .error "can\x27t combine --all with other matching options") :=
  close_listeners_all_conflict_error sampleNode ⟨true, some "/x/p1", none, none⟩
    ⟨""⟩ ⟨""⟩ rfl rfl rfl (Or.inl rfl) rfl rfl

/-- C5: a create-local-forward or create-remote-forward whose protocol
name is outside the reserved `/x/` namespace fails with the namespace
error and registers nothing (the node is returned unchanged), unless the
`--allow-custom-protocol` override is set, in which case the check is
skipped and the operation proceeds to the engine call — whose result is
returned as is; for the local forward the temporary peerstore recording
made before the engine call persists even when the engine call fails. -/
theorem forward_protocol_namespace_gate (node : Node)
    (proto listenStr targetStr remoteTargetStr : String)
    (listen remoteTarget : Multiaddr) (target : IPFSAddr)
    (hm : node.libp2pStreamMounting = true) (ho : node.onlineMode = true)
    (hlisten : NewMultiaddr listenStr = .ok listen)
    (htarget : ParseString targetStr = .ok target)
    (hrt : NewMultiaddr remoteTargetStr = .ok remoteTarget)
    (hpre : hasPrefixGo proto P2PProtoPrefix = false) :
    p2pForwardRun node ⟨proto, listenStr, targetStr, false⟩
      = some (node, .error ("protocol name must be within \x27"
          ++ P2PProtoPrefix ++ "\x27 namespace")) ∧
    p2pListenRun node ⟨proto, remoteTargetStr, false⟩
      = (node, .error ("protocol name must be within \x27"
          ++ P2PProtoPrefix ++ "\x27 namespace")) ∧
    p2pForwardRun node ⟨proto, listenStr, targetStr, true⟩
      = some (match node.P2P.ForwardLocal target.ID proto listen with
          | .error e => ({ node with
                            Peerstore := node.Peerstore.AddAddr target.ID target.multiaddr },
              .error e)
          | .ok p2 => ({ node with
                          P2P := p2
                          Peerstore := node.Peerstore.AddAddr target.ID target.multiaddr },
              .ok ())) ∧
    p2pListenRun node ⟨proto, remoteTargetStr, true⟩
      = (match node.P2P.ForwardRemote proto remoteTarget with
          | .error e => (node, .error e)
          | .ok p2 => ({ node with P2P := p2 }, .ok ())) := by
  have hgate := p2pGetNode_ok node hm ho
  refine ⟨?_, ?_, ?_, ?_⟩
  · simp [p2pForwardRun, hgate, hlisten, htarget, hpre]
  · simp [p2pListenRun, hgate, hrt, hpre]
  · cases hfl : node.P2P.ForwardLocal target.ID proto listen <;>
      simp [p2pForwardRun, hgate, hlisten, htarget, forwardLocal, hfl]
  · cases hfr : node.P2P.ForwardRemote proto remoteTarget <;>
      simp [p2pListenRun, hgate, hrt, forwardRemote, hfr]

/-- C5 witness: on the sample node, protocol "customproto" is rejected by
both create operations without the override and accepted with it,
registering the corresponding listener. -/
theorem forward_protocol_namespace_gate_witness :
    p2pForwardRun sampleNode ⟨"customproto", "/ip4/0.0.0.0/tcp/9", "/ipfs/QmB", false⟩
      = some (sampleNode, .error "protocol name must be within \x27/x/\x27 namespace") ∧
    p2pListenRun sampleNode ⟨"customproto", "/ip4/5.5.5.5/tcp/5", false⟩
      = (sampleNode, .error "protocol name must be within \x27/x/\x27 namespace") ∧
    p2pForwardRun sampleNode ⟨"customproto", "/ip4/0.0.0.0/tcp/9", "/ipfs/QmB", true⟩
      = some ({ sampleNode with
                 P2P := { sampleNode.P2P with
                           Listeners := ⟨[sampleListenerA, sampleListenerB,
                             ⟨"customproto", ⟨"/ip4/0.0.0.0/tcp/9"⟩, ⟨"/ipfs/QmB"⟩⟩]⟩ }
                 Peerstore := ⟨[("QmB", ⟨"/ipfs/QmB"⟩)]⟩ }, .ok ()) ∧
    p2pListenRun sampleNode ⟨"customproto", "/ip4/5.5.5.5/tcp/5", true⟩
      = ({ sampleNode with
            P2P := { sampleNode.P2P with
                      Listeners := ⟨[sampleListenerA, sampleListenerB,
                        ⟨"customproto", ⟨"/ipfs/QmSelf"⟩, ⟨"/ip4/5.5.5.5/tcp/5"⟩⟩]⟩ } },
         .ok ()) := by
  have h := forward_protocol_namespace_gate sampleNode "customproto"
    "/ip4/0.0.0.0/tcp/9" "/ipfs/QmB" "/ip4/5.5.5.5/tcp/5"
    ⟨"/ip4/0.0.0.0/tcp/9"⟩ ⟨"/ip4/5.5.5.5/tcp/5"⟩ ⟨"QmB", ⟨"/ipfs/QmB"⟩⟩
    (by rfl) (by rfl) (by rfl) (by rfl) (by rfl) (by rfl)
  exact ⟨h.1, h.2.1, h.2.2.1.trans (by rfl), h.2.2.2.trans (by rfl)⟩

/-- With a specific handle requested, over a registry with distinct
handles the close loop of the source (which stops at the first match)
removes exactly the entry with the requested handle. -/
lemma resetMatching_nodup (h : Nat) (l : List (Nat × StreamInfo))
    (hnd : (l.map Prod.fst).Nodup) :
    resetMatching false h l = l.filter (fun e => !(e.1 == h)) := by
  induction l with
  | nil => rfl
  | cons e rest ih =>
    simp only [List.map_cons, List.nodup_cons] at hnd
    by_cases he : h = e.1
    · subst he
      have hrest : rest.filter (fun e2 => !(e2.1 == e.1)) = rest := by
        apply List.filter_eq_self.mpr
        intro a ha
        have hmem : a.1 ∈ rest.map Prod.fst := List.mem_map_of_mem Prod.fst ha
        have hne : a.1 ≠ e.1 := by
          intro hc
          rw [hc] at hmem
          exact hnd.1 hmem
        simp [hne]
      simp [resetMatching, hrest]
    · have hbne : (h != e.1) = true := by simp [he]
      have hne : ¬(e.1 = h) := fun hc => he hc.symm
      simp [resetMatching, hbne, hne, ih hnd.2]

/-- C6: closing a specific stream handle resets exactly the stream
registered under that handle (the scan stopping at the first match, the
handles being distinct); every other stream stays registered and is still
listed afterwards. -/
theorem stream_close_specific_handle (node : Node) (idStr : String) (h : Nat)
    (hm : node.libp2pStreamMounting = true) (ho : node.onlineMode = true)
    (hid : parseUintGo idStr = some h)
    (hnd : (node.P2P.Streams.Streams.map Prod.fst).Nodup) :
    p2pStreamCloseRun node ⟨some idStr, false⟩
      = ({ node with P2P := { node.P2P with Streams :=
            ⟨node.P2P.Streams.Streams.filter (fun e => !(e.1 == h))⟩ } }, .ok ()) ∧
    p2pStreamLsRun { node with P2P := { node.P2P with Streams :=
            ⟨node.P2P.Streams.Streams.filter (fun e => !(e.1 == h))⟩ } }
      = .ok ((node.P2P.Streams.Streams.filter (fun e => !(e.1 == h))).map fun e =>
          ⟨toString e.1, e.2.protocol, e.2.originAddr.repr, e.2.targetAddr.repr⟩) := by
  have hgate := p2pGetNode_ok node hm ho
  constructor
  · simp [p2pStreamCloseRun, hgate, hid, resetMatching_nodup h _ hnd]
  · simp [p2pStreamLsRun, p2pGetNode, hm, ho, bind, Except.bind]

/-- C6 witness: closing handle 4 on the sample node (streams 4 and 7)
removes exactly stream 4; stream 7 is still listed. -/
theorem stream_close_specific_handle_witness :
    p2pStreamCloseRun sampleNode ⟨some "4", false⟩
      = ({ sampleNode with P2P := { sampleNode.P2P with Streams :=
            ⟨[(7, ⟨"/x/p2", ⟨"/ip4/3.3.3.3/tcp/3"⟩, ⟨"/ip4/4.4.4.4/tcp/4"⟩⟩)]⟩ } }, .ok ()) ∧
    p2pStreamLsRun { sampleNode with P2P := { sampleNode.P2P with Streams :=
            ⟨[(7, ⟨"/x/p2", ⟨"/ip4/3.3.3.3/tcp/3"⟩, ⟨"/ip4/4.4.4.4/tcp/4"⟩⟩)]⟩ } }
      = .ok [⟨"7", "/x/p2", "/ip4/3.3.3.3/tcp/3", "/ip4/4.4.4.4/tcp/4"⟩] := by
  have h := stream_close_specific_handle sampleNode "4" 4 rfl rfl (by rfl) (by decide)
  exact ⟨h.1.trans (by rfl), (by rfl : _ = p2pStreamLsRun _).trans (h.2.trans (by rfl))⟩

/-- The close loop leaves a registry containing no entry under the
requested handle untouched. -/
lemma resetMatching_no_match (h : Nat) (l : List (Nat × StreamInfo))
    (hl : ∀ e ∈ l, e.1 ≠ h) : resetMatching false h l = l := by
  induction l with
  | nil => rfl
  | cons e rest ih =>
    have hne : e.1 ≠ h := hl e (by simp)
    have hbne : (h != e.1) = true := by simp [Ne.symm hne]
    simp [resetMatching, hbne, ih (fun a ha => hl a (List.mem_cons_of_mem _ ha))]

/-- C7 counterexample: on the sample node (streams under handles 4 and 7,
listeners on `/x/p1` and `/x/p2`), closing stream handle 9 and closing
listeners by protocol `/x/nope` — neither of which matches anything —
both report success (unit / count 0) with the node unchanged, not a
not-found error. -/
theorem close_not_found_counterexample :
    p2pStreamCloseRun sampleNode ⟨some "9", false⟩ = (sampleNode, .ok ()) ∧
    p2pCloseRun sampleNode ⟨false, some "/x/nope", none, none⟩ = (sampleNode, .ok 0) := by
  constructor <;> rfl

/-- C7 (amended): an administrative close or reset whose target matches no
registered entity is a silent no-op reporting success: close-stream resets
nothing and succeeds, close-listeners closes nothing and returns count 0;
no not-found error is produced and the registries are unchanged. -/
theorem close_no_match_silent_noop (node : Node) (idStr : String) (h : Nat)
    (proto : String)
    (hm : node.libp2pStreamMounting = true) (ho : node.onlineMode = true)
    (hid : parseUintGo idStr = some h)
    (hs : ∀ e ∈ node.P2P.Streams.Streams, e.1 ≠ h)
    (hp : ∀ lst ∈ node.P2P.Listeners.Listeners, lst.protocol ≠ proto) :
    p2pStreamCloseRun node ⟨some idStr, false⟩ = (node, .ok ()) ∧
    p2pCloseRun node ⟨false, some proto, none, none⟩ = (node, .ok 0) := by
  have hgate := p2pGetNode_ok node hm ho
  constructor
  · simp [p2pStreamCloseRun, hgate, hid, resetMatching_no_match h _ hs]
  · have h2 := p2pCloseRun_selective node ⟨false, some proto, none, none⟩
      ⟨""⟩ ⟨""⟩ hm ho rfl (Or.inl rfl) rfl rfl
    rw [h2]
    have hmatch : ∀ lst ∈ node.P2P.Listeners.Listeners,
        specifiedFieldsMatch true false false proto ⟨""⟩ ⟨""⟩ lst = false := by
      intro lst hlst
      simp [specifiedFieldsMatch, Ne.symm (hp lst hlst)]
    have hfilterT : node.P2P.Listeners.Listeners.filter
        (specifiedFieldsMatch true false false proto ⟨""⟩ ⟨""⟩) = [] :=
      List.filter_eq_nil_iff.mpr (fun a ha => by simp [hmatch a ha])
    have hfilterF : node.P2P.Listeners.Listeners.filter
        (fun lst => !(specifiedFieldsMatch true false false proto ⟨""⟩ ⟨""⟩ lst))
        = node.P2P.Listeners.Listeners :=
      List.filter_eq_self.mpr (fun a ha => by simp [hmatch a ha])
    simp only [Option.isSome_some, Option.isSome_none, Option.getD_some,
      hfilterT, hfilterF, List.length_nil]

/-- C7 amended-claim witness: stream handle 8 and protocol `/x/other`
match nothing on the sample node; both closes are silent no-ops. -/
theorem close_no_match_silent_noop_witness :
    p2pStreamCloseRun sampleNode ⟨some "8", false⟩ = (sampleNode, .ok ()) ∧
    p2pCloseRun sampleNode ⟨false, some "/x/other", none, none⟩ = (sampleNode, .ok 0) :=
  close_no_match_silent_noop sampleNode "8" 8 "/x/other" rfl rfl (by decide)
    (by decide) (by decide)

/-- C8: each listing returns exactly one output row per registered entity,
in registry (insertion) order — a complete snapshot, determined by the
registry state alone. -/
theorem ls_complete_ordered_snapshot (node : Node)
    (hm : node.libp2pStreamMounting = true) (ho : node.onlineMode = true) :
    p2pLsRun node = .ok (node.P2P.Listeners.Listeners.map fun lst =>
        ⟨lst.protocol, lst.listenAddress.repr, lst.targetAddress.repr⟩) ∧
    p2pStreamLsRun node = .ok (node.P2P.Streams.Streams.map fun e =>
        ⟨toString e.1, e.2.protocol, e.2.originAddr.repr, e.2.targetAddr.repr⟩) := by
  have hgate := p2pGetNode_ok node hm ho
  constructor <;> simp [p2pLsRun, p2pStreamLsRun, hgate, bind, Except.bind]

/-- C8 witness: the listings of the sample node, one row per listener and
per stream, in registry order. -/
theorem ls_complete_ordered_snapshot_witness :
    p2pLsRun sampleNode = .ok
      [⟨"/x/p1", "/ip4/127.0.0.1/tcp/4567", "/ipfs/QmPeer"⟩,
       ⟨"/x/p2", "/ip4/127.0.0.1/tcp/4567", "/ipfs/QmPeer"⟩] ∧
    p2pStreamLsRun sampleNode = .ok
      [⟨"4", "/x/p1", "/ip4/1.1.1.1/tcp/1", "/ip4/2.2.2.2/tcp/2"⟩,
       ⟨"7", "/x/p2", "/ip4/3.3.3.3/tcp/3", "/ip4/4.4.4.4/tcp/4"⟩] := by
  have h := ls_complete_ordered_snapshot sampleNode rfl rfl
  exact ⟨h.1.trans (by rfl), h.2.trans (by rfl)⟩

/-- The error the gate produces: the experimental-flag check runs first,
the online-mode check second. -/
def gateError (node : Node) : String :=
  if node.libp2pStreamMounting then "this command must be run in online mode"
  else "libp2p stream mounting not enabled"

/-- C9: with the experimental flag off or the node offline, every p2p
operation — forward, listen, ls, close, stream ls, stream close — fails
with the corresponding gate error (flag checked first) and the node,
hence both registries, is unchanged. -/
theorem gate_blocks_every_operation (node : Node)
    (freq : ForwardRequest) (lreq : ListenRequest)
    (creq : CloseRequest) (sreq : StreamCloseRequest)
    (hgate : node.libp2pStreamMounting = false ∨ node.onlineMode = false) :
    p2pGetNode node = .error (gateError node) ∧
    p2pForwardRun node freq = some (node, .error (gateError node)) ∧
    p2pListenRun node lreq = (node, .error (gateError node)) ∧
    p2pLsRun node = .error (gateError node) ∧
    p2pCloseRun node creq = (node, .error (gateError node)) ∧
    p2pStreamLsRun node = .error (gateError node) ∧
    p2pStreamCloseRun node sreq = (node, .error (gateError node)) := by
  have herr : p2pGetNode node = .error (gateError node) := by
    rcases hgate with hg | hg
    · simp [p2pGetNode, gateError, hg]
    · by_cases hm2 : node.libp2pStreamMounting <;>
        simp [p2pGetNode, gateError, hm2, hg]
  refine ⟨herr, ?_, ?_, ?_, ?_, ?_, ?_⟩ <;>
    simp [p2pForwardRun, p2pListenRun, p2pLsRun, p2pCloseRun,
      p2pStreamLsRun, p2pStreamCloseRun, herr, bind, Except.bind]

/-- C9 witness: with the experimental flag off on the otherwise valid
sample node, the gate and, e.g., close-listeners fail with the
not-enabled error and the node is unchanged. -/
theorem gate_blocks_every_operation_witness :
    p2pGetNode { sampleNode with libp2pStreamMounting := false }
      = .error "libp2p stream mounting not enabled" ∧
    p2pCloseRun { sampleNode with libp2pStreamMounting := false }
        ⟨true, none, none, none⟩
      = ({ sampleNode with libp2pStreamMounting := false },
         .error "libp2p stream mounting not enabled") := by
  have h := gate_blocks_every_operation
    { sampleNode with libp2pStreamMounting := false }
    ⟨"/x/p", "/a", "/ipfs/Qm", false⟩ ⟨"/x/p", "/a", false⟩
    ⟨true, none, none, none⟩ ⟨none, true⟩ (Or.inl rfl)
  exact ⟨h.1.trans (by rfl), h.2.2.2.2.1.trans (by rfl)⟩

/-- C10: `forwardLocal` guards only the address-book recording against a
nil address but calls `addr.ID()` unconditionally, so it panics exactly
when the address is nil and is safe whenever it is not; at its sole call
site, `p2pForwardRun` reaches it only with an address produced by a
successful `ParseString`, so the forward command never hits the panic. -/
theorem forwardLocal_nil_guard (p : P2PService) (ps : Peerstore)
    (proto : String) (bindAddr : Multiaddr) :
    forwardLocal p ps proto bindAddr none = none ∧
    (∀ a : IPFSAddr, (forwardLocal p ps proto bindAddr (some a)).isSome = true) ∧
    (∀ (node : Node) (req : ForwardRequest), p2pForwardRun node req ≠ none) := by
  refine ⟨rfl, fun a => rfl, ?_⟩
  intro node req
  cases hg : p2pGetNode node with
  | error e => simp [p2pForwardRun, hg]
  | ok n =>
    cases hl : NewMultiaddr req.listenAddress with
    | error e => simp [p2pForwardRun, hg, hl]
    | ok listen =>
      cases hp : ParseString req.targetAddress with
      | error e => simp [p2pForwardRun, hg, hl, hp]
      | ok target =>
        cases hc : (!req.allowCustomProtocol
            && !(hasPrefixGo req.protocol P2PProtoPrefix)) with
        | true => simp [p2pForwardRun, hg, hl, hp, hc]
        | false =>
          cases hfl : n.P2P.ForwardLocal target.ID req.protocol listen <;>
            simp [p2pForwardRun, hg, hl, hp, hc, forwardLocal, hfl]

end P2PCommands
